import Mathlib

/-!
Shallow embedding of high_dimensional_sampling/experiments.py: the
experiment control loop of Experiment._perform_experiment, the stopping
criteria of OptimisationExperiment and PosteriorSamplingExperiment, and
the Logger subsystem.  Python floats are modelled over the rationals,
Python ints over the integers, and Python exceptions with Except.
-/

/-- Model of numpy.min applied to the (flattened) value array of a batch:
it raises a ValueError on an empty array and otherwise returns the least
element. -/
def np_min : List ℚ → Except String ℚ
  | [] => Except.error "ValueError: zero-size array to reduction operation minimum"
  | v :: vs => Except.ok (vs.foldl min v)

/-- Criterion state of OptimisationExperiment as set up by run():
epsilon, absolute_improvement, patience and finish_line are the run
parameters; n_sampled is initialised to None and optimals to the empty
list before the first iteration. -/
structure OptimisationState where
  epsilon : ℚ
  absolute_improvement : Bool
  patience : ℤ
  finish_line : Option ℤ
  n_sampled : Option (List ℤ)
  optimals : List ℚ
  deriving DecidableEq, Repr

/-- The per-entry quantity computed in the loop body of
_sampled_since_last_improvement: cut - optimals[i] when
absolute_improvement holds, optimals[i] / cut otherwise. -/
def OptimisationExperiment.improvement_value (absolute_improvement : Bool) (cut v : ℚ) : ℚ :=
  if absolute_improvement then cut - v else v / cut

/-- The for-loop of _sampled_since_last_improvement: indices are visited
from i down to 1 (Python range(len(optimals) - 2, 0, -1) started at
i = len(optimals) - 2); on the first index whose improvement value
exceeds epsilon the loop returns n_sampled[-1] - n_sampled[i]. -/
def OptimisationExperiment.scan_loop (absolute_improvement : Bool) (eps cut : ℚ)
    (optimals : List ℚ) (n : List ℤ) : ℕ → Option ℤ
  | 0 => none
  | i + 1 =>
    if OptimisationExperiment.improvement_value absolute_improvement cut (optimals.getD (i + 1) 0) > eps then
      some (n.getLastD 0 - n.getD (i + 1) 0)
    else
      OptimisationExperiment.scan_loop absolute_improvement eps cut optimals n i

/-- OptimisationExperiment._sampled_since_last_improvement: cut is the
last optimals entry; the backward scan runs over indices
len(optimals) - 2 down to 1, and on no hit the fallback is
n_sampled[-1] - n_sampled[0]. -/
def OptimisationExperiment.sampled_since_last_improvement (absolute_improvement : Bool)
    (eps : ℚ) (optimals : List ℚ) (n : List ℤ) : ℤ :=
  let cut := optimals.getLastD 0
  match OptimisationExperiment.scan_loop absolute_improvement eps cut optimals n
      (optimals.length - 2) with
  | some r => r
  | none => n.getLastD 0 - n.headD 0

/-- OptimisationExperiment._stop_experiment on a batch with len(x) = lenx
and value array y.  The cumulative list n_sampled is extended first; the
comparison n_sampled[-1] > finish_line raises a TypeError when
finish_line is None; otherwise np.min(y) is appended to optimals (raising
on an empty batch) and the patience check is evaluated. -/
def OptimisationExperiment.stop_experiment (s : OptimisationState) (lenx : ℕ) (y : List ℚ) :
    Except String (OptimisationState × Bool) :=
  let ns : List ℤ :=
    match s.n_sampled with
    | none => [(lenx : ℤ)]
    | some l => l ++ [l.getLastD 0 + (lenx : ℤ)]
  let s1 : OptimisationState := { s with n_sampled := some ns }
  match s.finish_line with
  | none => Except.error "TypeError: comparison of int and NoneType"
  | some fl =>
    if ns.getLastD 0 > fl then Except.ok (s1, true)
    else
      match np_min y with
      | Except.error e => Except.error e
      | Except.ok m =>
        let s2 : OptimisationState := { s1 with optimals := s1.optimals ++ [m] }
        if OptimisationExperiment.sampled_since_last_improvement s2.absolute_improvement
            s2.epsilon s2.optimals ns > s2.patience then
          Except.ok (s2, true)
        else
          Except.ok (s2, false)

/-- PosteriorSamplingExperiment._stop_experiment: len(x) is accumulated
into the running total first; the comparison n_sampled >= finish_line
raises a TypeError when finish_line is None. -/
def PosteriorSamplingExperiment.stop_experiment (n_sampled : ℤ) (finish_line : Option ℤ)
    (lenx : ℕ) : Except String (ℤ × Bool) :=
  let n := n_sampled + (lenx : ℤ)
  match finish_line with
  | none => Except.error "TypeError: comparison of int and NoneType"
  | some fl => Except.ok (n, decide (n ≥ fl))

/-- Outcome of one iteration body as seen by the control loop: either some
step of the body (the method invocation or a logging call) raises, or the
iteration completes with a batch of lenx points with value array y and
with the method self-reporting isfin from is_finished(). -/
inductive IterationOutcome where
  | raise
  | batch (lenx : ℕ) (y : List ℚ) (isfin : Bool)

/-- Exit of Experiment._perform_experiment: a normal exit (the while
condition became true and the trailing del of the logger ran), a
propagated exception (no handler, so control leaves the loop at once), or
fuel exhaustion of the model.  The loggerClosed flag records whether the
logger handles were released before control returned to the caller. -/
inductive RunExit (σ : Type) where
  | normal (iterations : ℕ) (critState : σ) (loggerClosed : Bool)
  | raised (iterations : ℕ) (critState : σ) (loggerClosed : Bool)
  | fuelOut

/-- The while loop of Experiment._perform_experiment, parametric in the
stopping criterion (a state transformer that may raise).  Per iteration:
run the body (method call plus logging); if it raised, propagate without
closing the logger; otherwise evaluate
is_finished() or _stop_experiment(x, y) with the short-circuit semantics
of the Python or: the criterion is not consulted when is_finished() is
true.  On a normal exit the logger is deleted, closing its handles. -/
def perform_experiment {σ : Type} (method : ℕ → IterationOutcome)
    (crit : ℕ → List ℚ → σ → Except String (σ × Bool)) :
    ℕ → ℕ → σ → RunExit σ
  | 0, _, _ => RunExit.fuelOut
  | fuel + 1, k, s =>
    match method k with
    | IterationOutcome.raise => RunExit.raised k s false
    | IterationOutcome.batch lenx y isfin =>
      if isfin then RunExit.normal (k + 1) s true
      else
        match crit lenx y s with
        | Except.error _ => RunExit.raised (k + 1) s false
        | Except.ok (s1, stop) =>
          if stop then RunExit.normal (k + 1) s1 true
          else perform_experiment method crit fuel (k + 1) s1

/-- A run of OptimisationExperiment: the control loop driven by the
optimisation stopping criterion, started on the state produced by
run(). -/
def OptimisationExperiment.run_experiment (method : ℕ → IterationOutcome) (fuel : ℕ)
    (s : OptimisationState) : RunExit OptimisationState :=
  perform_experiment method
    (fun lenx y s1 => OptimisationExperiment.stop_experiment s1 lenx y) fuel 0 s

/-- OptimizationExperiment derives from OptimisationExperiment with an
empty class body, so every attribute lookup resolves to the parent:
its _stop_experiment is the parent one. -/
def OptimizationExperiment.stop_experiment :
    OptimisationState → ℕ → List ℚ → Except String (OptimisationState × Bool) :=
  OptimisationExperiment.stop_experiment

/-- OptimizationExperiment._sampled_since_last_improvement resolves to the
parent implementation. -/
def OptimizationExperiment.sampled_since_last_improvement :
    Bool → ℚ → List ℚ → List ℤ → ℤ :=
  OptimisationExperiment.sampled_since_last_improvement

/-- A run of OptimizationExperiment: inherited unchanged from
OptimisationExperiment. -/
def OptimizationExperiment.run_experiment :
    (ℕ → IterationOutcome) → ℕ → OptimisationState → RunExit OptimisationState :=
  OptimisationExperiment.run_experiment

/-- Logger state relevant to the samples stream: the header-pending flag
set at construction, how many headers were written so far, the column
layout of the written header as (input dimension, output dimension), and
how many data rows were written. -/
structure SamplesLogState where
  create_samples_header : Bool
  header_writes : ℕ
  header_cols : Option (ℕ × ℕ)
  rows_written : ℕ
  deriving DecidableEq, Repr

/-- Logger state right after __init__: create_samples_header is True and
nothing has been written to the samples stream. -/
def init_samples_state : SamplesLogState :=
  { create_samples_header := true, header_writes := 0, header_cols := none,
    rows_written := 0 }

/-- Logger.log_samples on a batch (x, y): while the header flag is set the
first rows x[0] and y[0] are accessed (raising an IndexError when x or y
is empty) and the header is written once with one column per input and
output dimension, after which the flag is cleared; then one row per point
of x is written, raising when y is shorter than x. -/
def log_samples (s : SamplesLogState) (x y : List (List ℚ)) : Except String SamplesLogState :=
  if s.create_samples_header then
    match x.head?, y.head? with
    | some x0, some y0 =>
      if x.length ≤ y.length then
        Except.ok { s with create_samples_header := false,
                           header_writes := s.header_writes + 1,
                           header_cols := some (x0.length, y0.length),
                           rows_written := s.rows_written + x.length }
      else Except.error "IndexError: list index out of range"
    | _, _ => Except.error "IndexError: index 0 is out of bounds"
  else
    if x.length ≤ y.length then
      Except.ok { s with rows_written := s.rows_written + x.length }
    else Except.error "IndexError: list index out of range"

/-- The successive log_samples calls of one run, one per logged batch; an
exception propagates and aborts the run. -/
def log_samples_run (s : SamplesLogState) :
    List (List (List ℚ) × List (List ℚ)) → Except String SamplesLogState
  | [] => Except.ok s
  | (x, y) :: rest =>
    match log_samples s x y with
    | Except.error e => Except.error e
    | Except.ok s1 => log_samples_run s1 rest

/-- File system model for Logger.log_benchmarks: an association list from
paths to file contents. -/
structure FileSystem where
  files : List (String × String)
  deriving DecidableEq, Repr

/-- os.path.exists. -/
def FileSystem.pathExists (fs : FileSystem) (p : String) : Bool :=
  fs.files.any (fun e => e.1 == p)

/-- Number of files stored at path p. -/
def FileSystem.countPath (fs : FileSystem) (p : String) : ℕ :=
  (fs.files.filter (fun e => e.1 == p)).length

/-- The path basepath + os.sep + "benchmarks.yaml". -/
def benchmarks_file_path (basepath : String) : String :=
  basepath ++ "/" ++ "benchmarks.yaml"

/-- Logger.log_benchmarks: if the benchmarks file already exists under the
base path, return at once; otherwise run the benchmarks and write their
yaml dump (the content argument) to that path. -/
def log_benchmarks (fs : FileSystem) (basepath : String) (content : String) : FileSystem :=
  if fs.pathExists (benchmarks_file_path basepath) then fs
  else { files := (benchmarks_file_path basepath, content) :: fs.files }

/-- The teardown discipline actually implemented by the loop: the logger
handles are released exactly on the normal exits (where the trailing del
of the logger runs) and are left open when an exception propagates. -/
def RunExit.closedOnlyOnNormal {σ : Type} : RunExit σ → Prop
  | RunExit.normal _ _ b => b = true
  | RunExit.raised _ _ b => b = false
  | RunExit.fuelOut => True

section
attribute [local semireducible] Rat.add Rat.sub Rat.mul Rat.inv Rat.ofScientific

/-- Claim C1 (counterexample): with epsilon = 0.1, absolute improvement,
minima [10, 9, 8.95, 8.9] and one point per iteration, the backward scan
does not yield 2 (it yields 3, the fallback, since cut - optimals[i] is
negative at every scanned index); moreover with finish_line = None the
criterion raises a TypeError at its very first evaluation, so the claimed
scenario never even reaches a fourth iteration. -/
theorem claim_C1_counterexample :
    OptimisationExperiment.sampled_since_last_improvement true (1/10)
      [10, 9, 8.95, 8.9] [1, 2, 3, 4] ≠ 2
    ∧ OptimisationExperiment.stop_experiment ⟨1/10, true, 2, none, none, []⟩ 1 [10]
      = Except.error "TypeError: comparison of int and NoneType" :=
  ⟨by decide, rfl⟩

/-- Claim C1 (amended): with epsilon = 0.1, absolute_improvement = True,
patience = 2 and the hard cap effectively disabled by a large numeric
finish_line (None would raise a TypeError), per-iteration batch minima
[10, 9, 8.95, 8.9] with one point per iteration make the run stop exactly
after the fourth iteration: the backward scan finds no index whose value
cut - optimals[i] exceeds 0.1, so samples_since_improvement falls back to
n_sampled[3] - n_sampled[0] = 3, which exceeds patience = 2. -/
theorem claim_C1_amended :
    perform_experiment
      (fun k => IterationOutcome.batch 1 [[(10 : ℚ), 9, 8.95, 8.9].getD k 0] false)
      (fun lenx y s1 => OptimisationExperiment.stop_experiment s1 lenx y)
      10 0 ⟨1/10, true, 2, some 1000, none, []⟩
      = RunExit.normal 4
          ⟨1/10, true, 2, some 1000, some [1, 2, 3, 4], [10, 9, 8.95, 8.9]⟩ true
    ∧ OptimisationExperiment.sampled_since_last_improvement true (1/10)
        [10, 9, 8.95, 8.9] [1, 2, 3, 4] = 3 :=
  ⟨rfl, by decide⟩

/-- Claim C2 (code bug): both criteria compare the cumulative count
against finish_line with the Python comparison operator, which raises a
TypeError when finish_line is None, while the docstrings of both run()
methods promise that None makes the run continue until the method reports
itself finished. -/
theorem claim_C2_code_bug :
    OptimisationExperiment.stop_experiment ⟨1/10, true, 2, none, none, []⟩ 1 [0]
      = Except.error "TypeError: comparison of int and NoneType"
    ∧ PosteriorSamplingExperiment.stop_experiment 0 none 40
      = Except.error "TypeError: comparison of int and NoneType" :=
  ⟨rfl, rfl⟩

/-- Claim C3 (counterexample): a run whose first iteration raises returns
control to the caller with the logger handles still open, because the
del of the logger stands after the while loop with no handler around the
body; teardown is not unconditional. -/
theorem claim_C3_counterexample :
    perform_experiment (fun _ => IterationOutcome.raise)
      (fun lenx _y n => PosteriorSamplingExperiment.stop_experiment n (some 100) lenx)
      3 0 (0 : ℤ) = RunExit.raised 0 0 false :=
  rfl

/-- Claim C3 (amended): the logger handles are released exactly on the
normal exit paths of the control loop, where the trailing del of the
logger reference runs; on every exit caused by an exception in an
iteration the error propagates without any release. -/
theorem claim_C3_amended {σ : Type} (method : ℕ → IterationOutcome)
    (crit : ℕ → List ℚ → σ → Except String (σ × Bool)) :
    ∀ (fuel k : ℕ) (s : σ),
      (perform_experiment method crit fuel k s).closedOnlyOnNormal := by
  intro fuel
  induction fuel with
  | zero => intro k s; trivial
  | succ fuel ih =>
    intro k s
    rw [perform_experiment]
    cases method k with
    | raise => trivial
    | batch lenx y isfin =>
      cases isfin with
      | true => trivial
      | false =>
        simp only [Bool.false_eq_true, if_false]
        cases crit lenx y s with
        | error e => trivial
        | ok p =>
          obtain ⟨s2, stop⟩ := p
          cases stop with
          | true => trivial
          | false => exact ih (k + 1) s2

/-- Claim C4 (counterexample): the Optimisation stopping criterion raises
on an empty batch: with a numeric finish_line the hard-cap check passes
and np.min is applied to the empty value array, which raises a
ValueError. -/
theorem claim_C4_counterexample :
    OptimisationExperiment.stop_experiment ⟨1/10, true, 100, some 1000, none, []⟩ 0 []
      = Except.error "ValueError: zero-size array to reduction operation minimum" :=
  rfl

/-- Claim C5: at each iteration the loop halts exactly when the method
reports itself finished or the stopping criterion signals stop, with the
short-circuit semantics of the Python or: is_finished is consulted first,
and when it is true the loop exits at once with the criterion state
untouched; when both checks are negative the loop proceeds to the next
iteration. -/
theorem claim_C5 {σ : Type} (method : ℕ → IterationOutcome)
    (crit : ℕ → List ℚ → σ → Except String (σ × Bool))
    (fuel k : ℕ) (s : σ) (lenx : ℕ) (y : List ℚ) (isfin : Bool)
    (hm : method k = IterationOutcome.batch lenx y isfin) :
    (isfin = true →
      perform_experiment method crit (fuel + 1) k s = RunExit.normal (k + 1) s true)
    ∧ (∀ s1, isfin = false → crit lenx y s = Except.ok (s1, true) →
        perform_experiment method crit (fuel + 1) k s = RunExit.normal (k + 1) s1 true)
    ∧ (∀ s1, isfin = false → crit lenx y s = Except.ok (s1, false) →
        perform_experiment method crit (fuel + 1) k s
          = perform_experiment method crit fuel (k + 1) s1) := by
  refine ⟨?_, ?_, ?_⟩
  · intro h; subst h; rw [perform_experiment, hm]; rfl
  · intro s1 h hc; subst h; rw [perform_experiment, hm]; simp [hc]
  · intro s1 h hc; subst h; rw [perform_experiment, hm]; simp [hc]

/-- Claim C5 (witness): a method that reports itself finished on its first
iteration halts the loop at once, with the criterion state untouched. -/
theorem claim_C5_witness :
    (fun _ : ℕ => IterationOutcome.batch 2 [5] true) 0
      = IterationOutcome.batch 2 [5] true
    ∧ perform_experiment (fun _ : ℕ => IterationOutcome.batch 2 [5] true)
        (fun lenx _y n => Except.ok (n + (lenx : ℤ), false)) (3 + 1) 0 (0 : ℤ)
        = RunExit.normal 1 0 true :=
  ⟨rfl,
    (claim_C5 (fun _ : ℕ => IterationOutcome.batch 2 [5] true)
      (fun lenx _y n => Except.ok (n + (lenx : ℤ), false)) 3 0 0 2 [5] true rfl).1 rfl⟩

/-- Claim C7: the PosteriorSampling criterion adds len(x) to its running
total and signals stop exactly when the total reaches or exceeds the
numeric finish_line; with finish_line = 100 and batch sizes [40, 40, 30]
the loop runs exactly three iterations, stopping at the third with total
110 and not at the second with total 80. -/
theorem claim_C7 :
    (∀ (n f : ℤ) (lenx : ℕ),
      PosteriorSamplingExperiment.stop_experiment n (some f) lenx
        = Except.ok (n + (lenx : ℤ), decide (n + (lenx : ℤ) ≥ f))
      ∧ (PosteriorSamplingExperiment.stop_experiment n (some f) lenx
          = Except.ok (n + (lenx : ℤ), true) ↔ n + (lenx : ℤ) ≥ f))
    ∧ perform_experiment
        (fun k => IterationOutcome.batch ([40, 40, 30].getD k 0) [0] false)
        (fun lenx _y n => PosteriorSamplingExperiment.stop_experiment n (some 100) lenx)
        10 0 (0 : ℤ)
        = RunExit.normal 3 110 true := by
  refine ⟨fun n f lenx => ⟨rfl, ?_⟩, rfl⟩
  simp [PosteriorSamplingExperiment.stop_experiment]

/-- Claim C8 (counterexample): a first logging call with an empty batch
raises an IndexError while building the header instead of deferring the
header to the first call that carries a point, so a run whose first batch
is empty never reaches the point-carrying call at all. -/
theorem claim_C8_counterexample :
    log_samples init_samples_state [] []
      = Except.error "IndexError: index 0 is out of bounds"
    ∧ log_samples_run init_samples_state [([], []), ([[1]], [[2]])]
      = Except.error "IndexError: index 0 is out of bounds" :=
  ⟨rfl, rfl⟩

/-- Claim C10: OptimizationExperiment inherits from
OptimisationExperiment with an empty class body, so its stopping
criterion, its backward scan and a whole run of the control loop coincide
with the parent ones on every input. -/
theorem claim_C10 :
    (∀ (s : OptimisationState) (lenx : ℕ) (y : List ℚ),
      OptimizationExperiment.stop_experiment s lenx y
        = OptimisationExperiment.stop_experiment s lenx y)
    ∧ (∀ (absi : Bool) (eps : ℚ) (optimals : List ℚ) (n : List ℤ),
      OptimizationExperiment.sampled_since_last_improvement absi eps optimals n
        = OptimisationExperiment.sampled_since_last_improvement absi eps optimals n)
    ∧ (∀ (method : ℕ → IterationOutcome) (fuel : ℕ) (s : OptimisationState),
      OptimizationExperiment.run_experiment method fuel s
        = OptimisationExperiment.run_experiment method fuel s) :=
  ⟨fun _ _ _ => rfl, fun _ _ _ _ => rfl, fun _ _ _ => rfl⟩

end

/-- Unfolding equation of the backward scan at a positive index. -/
theorem OptimisationExperiment.scan_loop_succ (absi : Bool) (eps cut : ℚ)
    (optimals : List ℚ) (n : List ℤ) (i : ℕ) :
    OptimisationExperiment.scan_loop absi eps cut optimals n (i + 1)
      = if OptimisationExperiment.improvement_value absi cut (optimals.getD (i + 1) 0) > eps
        then some (n.getLastD 0 - n.getD (i + 1) 0)
        else OptimisationExperiment.scan_loop absi eps cut optimals n i :=
  rfl

/-- Unfolding equation of _sampled_since_last_improvement in terms of the
backward scan. -/
theorem OptimisationExperiment.sampled_since_eq (absi : Bool) (eps : ℚ)
    (optimals : List ℚ) (n : List ℤ) :
    OptimisationExperiment.sampled_since_last_improvement absi eps optimals n
      = match OptimisationExperiment.scan_loop absi eps (optimals.getLastD 0) optimals n
            (optimals.length - 2) with
        | some r => r
        | none => n.getLastD 0 - n.headD 0 :=
  rfl

/-- The backward scan of _sampled_since_last_improvement, characterised:
running the loop from index i either hits the largest index j in [1, i]
whose improvement value exceeds epsilon and returns
n_sampled[-1] - n_sampled[j], or no index in [1, i] qualifies and the
loop falls through. -/
theorem OptimisationExperiment.scan_loop_characterisation (absi : Bool) (eps cut : ℚ)
    (optimals : List ℚ) (n : List ℤ) :
    ∀ i : ℕ,
      (∃ j, 1 ≤ j ∧ j ≤ i
          ∧ OptimisationExperiment.improvement_value absi cut (optimals.getD j 0) > eps
          ∧ (∀ j2, j < j2 → j2 ≤ i →
              ¬(OptimisationExperiment.improvement_value absi cut (optimals.getD j2 0) > eps))
          ∧ OptimisationExperiment.scan_loop absi eps cut optimals n i
              = some (n.getLastD 0 - n.getD j 0))
      ∨ ((∀ j, 1 ≤ j → j ≤ i →
            ¬(OptimisationExperiment.improvement_value absi cut (optimals.getD j 0) > eps))
          ∧ OptimisationExperiment.scan_loop absi eps cut optimals n i = none) := by
  intro i
  induction i with
  | zero =>
    exact Or.inr ⟨fun j h1 h2 => (Nat.not_succ_le_zero 0 (h1.trans h2)).elim, rfl⟩
  | succ i ih =>
    by_cases hc :
        OptimisationExperiment.improvement_value absi cut (optimals.getD (i + 1) 0) > eps
    · refine Or.inl ⟨i + 1, Nat.succ_le_succ (Nat.zero_le i), Nat.le_refl _, hc, ?_, ?_⟩
      · intro j2 hlt hle
        exact ((Nat.lt_irrefl _ (Nat.lt_of_lt_of_le hlt hle)).elim)
      · rw [OptimisationExperiment.scan_loop_succ, if_pos hc]
    · rcases ih with ⟨j, h1, h2, hcj, hmax, heq⟩ | ⟨hall, heq⟩
      · refine Or.inl ⟨j, h1, h2.trans (Nat.le_succ i), hcj, ?_, ?_⟩
        · intro j2 hlt hle
          rcases Nat.eq_or_lt_of_le hle with he | hl
          · rw [he]; exact hc
          · exact hmax j2 hlt (Nat.lt_succ_iff.mp hl)
        · rw [OptimisationExperiment.scan_loop_succ, if_neg hc]; exact heq
      · refine Or.inr ⟨?_,
          by rw [OptimisationExperiment.scan_loop_succ, if_neg hc]; exact heq⟩
        intro j h1 hle
        rcases Nat.eq_or_lt_of_le hle with he | hl
        · rw [he]; exact hc
        · exact hall j h1 (Nat.lt_succ_iff.mp hl)

/-- Claim C6: for every criterion state, samples_since_improvement scans
backward over the indices that exclude both the last entry and entry 0,
that is over [1, len(optimals) - 2]; it returns
n_sampled[-1] - n_sampled[j] for the most recent such index j whose
improvement value (cut - optimals[j] in absolute mode, optimals[j] / cut
in relative mode, with cut the latest optimals entry) exceeds epsilon,
and n_sampled[-1] - n_sampled[0] when no such index exists. -/
theorem claim_C6 (absi : Bool) (eps : ℚ) (optimals : List ℚ) (n : List ℤ) :
    (∃ j, 1 ≤ j ∧ j ≤ optimals.length - 2
        ∧ OptimisationExperiment.improvement_value absi (optimals.getLastD 0)
            (optimals.getD j 0) > eps
        ∧ (∀ j2, j < j2 → j2 ≤ optimals.length - 2 →
            ¬(OptimisationExperiment.improvement_value absi (optimals.getLastD 0)
                (optimals.getD j2 0) > eps))
        ∧ OptimisationExperiment.sampled_since_last_improvement absi eps optimals n
            = n.getLastD 0 - n.getD j 0)
    ∨ ((∀ j, 1 ≤ j → j ≤ optimals.length - 2 →
          ¬(OptimisationExperiment.improvement_value absi (optimals.getLastD 0)
              (optimals.getD j 0) > eps))
        ∧ OptimisationExperiment.sampled_since_last_improvement absi eps optimals n
            = n.getLastD 0 - n.headD 0) := by
  rcases OptimisationExperiment.scan_loop_characterisation absi eps (optimals.getLastD 0)
      optimals n (optimals.length - 2) with ⟨j, h1, h2, hc, hmax, heq⟩ | ⟨hall, heq⟩
  · exact Or.inl ⟨j, h1, h2, hc, hmax,
      by rw [OptimisationExperiment.sampled_since_eq, heq]⟩
  · exact Or.inr ⟨hall,
      by rw [OptimisationExperiment.sampled_since_eq, heq]⟩

/-- Claim C4 (amended): an empty batch is a safe input to the
PosteriorSampling criterion when finish_line is numeric, but the
Optimisation criterion raises a ValueError from np.min on the empty value
array whenever the hard-cap check does not already stop the run. -/
theorem claim_C4_amended :
    (∀ (n f : ℤ),
      PosteriorSamplingExperiment.stop_experiment n (some f) 0
        = Except.ok (n, decide (n ≥ f)))
    ∧ (∀ (s : OptimisationState) (f : ℤ),
        s.finish_line = some f →
        (match s.n_sampled with
         | none => (0 : ℤ)
         | some l => l.getLastD 0) ≤ f →
        OptimisationExperiment.stop_experiment s 0 []
          = Except.error "ValueError: zero-size array to reduction operation minimum") := by
  constructor
  ·
    intro n f
    simp [PosteriorSamplingExperiment.stop_experiment]
  ·
    intro s f hfl hle
    obtain ⟨eps, absi, pat, fl, nsopt, opts⟩ := s
    simp only at hfl
    subst hfl
    cases nsopt with
    | none =>
      simp only at hle
      rw [OptimisationExperiment.stop_experiment]
      simp only [Nat.cast_zero]
      rw [show ([(0 : ℤ)]).getLastD 0 = (0 : ℤ) from rfl]
      rw [if_neg (by omega : ¬((0 : ℤ) > f))]
      rfl
    | some l =>
      simp only at hle
      rw [OptimisationExperiment.stop_experiment]
      simp only [Nat.cast_zero, add_zero, List.getLastD_concat]
      rw [if_neg (by omega : ¬(l.getLastD 0 > f))]
      rfl

/-- Claim C4 (amended, witness): the amended statement evaluated on a
fresh Optimisation state with finish_line 5 and on the PosteriorSampling
criterion at total 7 with finish_line 10. -/
theorem claim_C4_amended_witness :
    ((⟨1/10, true, 2, some 5, none, []⟩ : OptimisationState).finish_line = some 5
      ∧ (0 : ℤ) ≤ 5)
    ∧ PosteriorSamplingExperiment.stop_experiment 7 (some 10) 0
        = Except.ok (7, decide ((7 : ℤ) ≥ 10))
    ∧ OptimisationExperiment.stop_experiment ⟨1/10, true, 2, some 5, none, []⟩ 0 []
        = Except.error "ValueError: zero-size array to reduction operation minimum" :=
  ⟨⟨rfl, by decide⟩, claim_C4_amended.1 7 10,
    claim_C4_amended.2 ⟨1/10, true, 2, some 5, none, []⟩ 5 rfl (by decide)⟩

/-- Claim C8 (amended): log_samples writes the header on the very first
call of the run whatever its content: when the first call carries at
least one point the header is written exactly once with one column per
dimension of that first batch, and no later call writes a header; when
the first call carries zero points it raises an IndexError instead of
deferring the header. -/
theorem claim_C8_amended :
    (∀ (s : SamplesLogState) (y : List (List ℚ)),
      s.create_samples_header = true →
      log_samples s [] y = Except.error "IndexError: index 0 is out of bounds")
    ∧ (∀ (s : SamplesLogState) (x0 y0 : List ℚ) (xs ys : List (List ℚ)),
        s.create_samples_header = true →
        (x0 :: xs).length ≤ (y0 :: ys).length →
        log_samples s (x0 :: xs) (y0 :: ys)
          = Except.ok { s with create_samples_header := false,
                               header_writes := s.header_writes + 1,
                               header_cols := some (x0.length, y0.length),
                               rows_written := s.rows_written + (x0 :: xs).length })
    ∧ (∀ (batches : List (List (List ℚ) × List (List ℚ))) (s s1 : SamplesLogState),
        s.create_samples_header = false →
        log_samples_run s batches = Except.ok s1 →
        s1.create_samples_header = false
          ∧ s1.header_writes = s.header_writes ∧ s1.header_cols = s.header_cols) := by
  refine ⟨?_, ?_, ?_⟩
  ·
    intro s y hs
    simp [log_samples, hs]
  ·
    intro s x0 y0 xs ys hs hlen
    have hxy : xs.length ≤ ys.length := by simpa using hlen
    simp [log_samples, hs, hxy]
  ·
    intro batches
    induction batches with
    | nil =>
      intro s s1 hs h
      rw [log_samples_run] at h
      cases h
      exact ⟨hs, rfl, rfl⟩
    | cons b rest ih =>
      obtain ⟨x, y⟩ := b
      intro s s1 hs h
      rw [log_samples_run] at h
      by_cases hxy : x.length ≤ y.length
      ·
        rw [log_samples, if_neg (by simp [hs]), if_pos hxy] at h
        have h2 := ih { s with rows_written := s.rows_written + x.length } s1 hs h
        exact h2
      ·
        rw [log_samples, if_neg (by simp [hs]), if_neg hxy] at h
        cases h

/-- Claim C8 (amended, witness): the first call of a run carrying a batch
of one two-dimensional point with a one-dimensional value writes the
header once with columns (2, 1). -/
theorem claim_C8_amended_witness :
    (init_samples_state.create_samples_header = true
      ∧ ([[(1 : ℚ), 2]] : List (List ℚ)).length ≤ ([[(3 : ℚ)]] : List (List ℚ)).length)
    ∧ log_samples init_samples_state [[1, 2]] [[3]]
        = Except.ok { init_samples_state with
                        create_samples_header := false,
                        header_writes := init_samples_state.header_writes + 1,
                        header_cols := some (2, 1),
                        rows_written := init_samples_state.rows_written + 1 } :=
  ⟨⟨rfl, by decide⟩,
    claim_C8_amended.2.1 init_samples_state [1, 2] [3] [] [] rfl (by decide)⟩

/-- Once the benchmarks file exists under the base path, any further
sequence of log_benchmarks runs against the same base path leaves the
file system unchanged. -/
theorem log_benchmarks_fold_frozen (base : String) :
    ∀ (cs : List String) (g : FileSystem),
      g.pathExists (benchmarks_file_path base) = true →
      List.foldl (fun f c => log_benchmarks f base c) g cs = g := by
  intro cs
  induction cs with
  | nil => intro g hg; rfl
  | cons c rest ih =>
    intro g hg
    have hstep : log_benchmarks g base c = g := by
      rw [log_benchmarks, if_pos hg]
    rw [List.foldl_cons, hstep]
    exact ih g hg

/-- Claim C9: log_benchmarks is idempotent per base path: when the
benchmarks file already exists it is a no-op leaving the file system
unchanged, and starting from a file system without the file, the first
run writes exactly one benchmarks file and every later run against the
same base path changes nothing. -/
theorem claim_C9 (fs : FileSystem) (base c : String) (cs : List String) :
    (fs.pathExists (benchmarks_file_path base) = true → log_benchmarks fs base c = fs)
    ∧ (fs.countPath (benchmarks_file_path base) = 0 →
        (log_benchmarks fs base c).countPath (benchmarks_file_path base) = 1
        ∧ List.foldl (fun f c2 => log_benchmarks f base c2) (log_benchmarks fs base c) cs
            = log_benchmarks fs base c) := by
  constructor
  ·
    intro h
    rw [log_benchmarks, if_pos h]
  ·
    intro h0
    have hnil : fs.files.filter (fun e => e.1 == benchmarks_file_path base) = [] :=
      List.length_eq_zero.mp h0
    have hnot : fs.pathExists (benchmarks_file_path base) = false := by
      rw [FileSystem.pathExists, List.any_eq_false]
      intro e he
      exact List.filter_eq_nil_iff.mp hnil e he
    have hwrite : log_benchmarks fs base c
        = { files := (benchmarks_file_path base, c) :: fs.files } := by
      rw [log_benchmarks, hnot]
      rfl
    constructor
    ·
      rw [hwrite, FileSystem.countPath]
      rw [List.filter_cons_of_pos (by simp)]
      simp only [List.length_cons]
      rw [FileSystem.countPath] at h0
      omega
    ·
      apply log_benchmarks_fold_frozen
      rw [hwrite, FileSystem.pathExists]
      simp

/-- Claim C9 (witness): starting from an empty file system, the first run
writes the single benchmarks file under the base path and two further
runs leave the file system unchanged. -/
theorem claim_C9_witness :
    (FileSystem.mk []).countPath (benchmarks_file_path "out") = 0
    ∧ ((log_benchmarks ⟨[]⟩ "out" "bench").countPath (benchmarks_file_path "out") = 1
      ∧ List.foldl (fun f c2 => log_benchmarks f "out" c2)
          (log_benchmarks ⟨[]⟩ "out" "bench") ["a", "b"]
          = log_benchmarks ⟨[]⟩ "out" "bench") :=
  ⟨rfl, (claim_C9 ⟨[]⟩ "out" "bench" ["a", "b"]).2 rfl⟩
